import Mathlib

/-!
Verification development for the altur upload pipeline
(src/backend/services/upload_service.py, llm_service.py, database_service.py).

The Python services are shallowly embedded as pure Lean functions.  External
collaborators (the WebSocket broadcaster, the speech-to-text engine, the
language-model engine, the MongoDB store, the file system) are modelled as
oracle inputs carried in an environment record: each run of the pipeline is a
pure function of the submission and of that environment, returning the full
trace of emitted progress events together with the resulting record/file
state.  Real time is discretised in half-second polling steps, matching the
0.5-second sleep of the supervision loops in upload_service.py.
-/

set_option maxRecDepth 2000

namespace Altur

/-- JSON-like Python values as they flow through the services (numbers are
omitted: no code path of the pipeline inspects a numeric field). -/
inductive PyVal : Type where
  | none : PyVal
  | str : String → PyVal
  | bool : Bool → PyVal
  | list : List PyVal → PyVal
  | dict : List (String × PyVal) → PyVal

/-- Python truthiness for the embedded values. -/
def truthy : PyVal → Bool
  | .none => false
  | .str s => !(s = "")
  | .bool b => b
  | .list l => !l.isEmpty
  | .dict d => !d.isEmpty

/-- Python dict.get with a default, on the association-list encoding. -/
def pyGet (d : List (String × PyVal)) (key : String) (dflt : PyVal) : PyVal :=
  match d.find? (fun kv => kv.1 = key) with
  | some kv => kv.2
  | Option.none => dflt

/-- Is the value a Python dict. -/
def isDict : PyVal → Bool
  | .dict _ => true
  | _ => false

/-- One progress event as built in UploadService._send_progress. -/
structure Event where
  session_id : String
  stage : String
  progress : Int
  message : String
deriving DecidableEq, Repr

/-- Delivery channel of one socketio.emit call: the session room or the
global broadcast. -/
inductive Chan : Type where
  | room (sid : String) : Chan
  | broadcast : Chan
deriving DecidableEq, Repr

/-- UploadService._send_progress: one publish yields two emissions carrying
the identical payload, first to the session room, then to the broadcast
channel. -/
def sendProgress (sid stage : String) (progress : Int) (message : String) :
    List (Chan × Event) :=
  [(Chan.room sid, ⟨sid, stage, progress, message⟩),
   (Chan.broadcast, ⟨sid, stage, progress, message⟩)]

/-- The event stream an observer subscribed to channel c receives. -/
def observed (t : List (Chan × Event)) (c : Chan) : List Event :=
  (t.filter (fun ce => ce.1 = c)).map (fun ce => ce.2)

/-- Behaviour of one background worker thread: it either finishes after a
given number of half-second polling steps with a result, or never finishes
within any budget. -/
inductive WorkerRun (α : Type) : Type where
  | finishes (halves : ℕ) (result : α) : WorkerRun α
  | hangs : WorkerRun α

/-- Transcription progress percent (upload_service.py lines 135-142): a
two-phase linear ramp on the elapsed seconds, clamped to 70. -/
def transcribePct (elapsed : ℚ) : Int :=
  if elapsed < 60 then min (35 + ⌊elapsed / 60 * 35⌋) 70
  else min (35 + ⌊elapsed / 300 * 35⌋) 70

/-- Analysis progress percent (upload_service.py line 207), clamped to 90. -/
def analyzePct (elapsed : ℚ) : Int :=
  min (70 + ⌊elapsed / 60 * 20⌋) 90

/-- The transcription percent as an integer computation on the iteration
index k (elapsed time k/2 seconds); transcribePctH_eq proves it equal to
the rational formula of the source. -/
def transcribePctH (k : ℕ) : Int :=
  if k < 120 then min (35 + 35 * (k : Int) / 120) 70
  else min (35 + 35 * (k : Int) / 600) 70

/-- The analysis percent on the iteration index k; analyzePctH_eq proves
it equal to the rational formula of the source. -/
def analyzePctH (k : ℕ) : Int :=
  min (70 + 20 * (k : Int) / 120) 90

/-- The integer transcription percent coincides with the rational
two-phase formula of the source at elapsed time k/2 seconds. -/
lemma transcribePctH_eq (k : ℕ) :
    transcribePctH k = transcribePct ((k : ℚ) / 2) := by
  have hcond : ((k : ℚ) / 2 < 60) ↔ k < 120 := by
    rw [div_lt_iff₀ (by norm_num : (0 : ℚ) < 2)]
    norm_cast
  have h1 : (k : ℚ) / 2 / 60 * 35 = ((35 * k : ℤ) : ℚ) / ((120 : ℕ) : ℚ) := by
    push_cast
    ring
  have h2 : (k : ℚ) / 2 / 300 * 35 = ((35 * k : ℤ) : ℚ) / ((600 : ℕ) : ℚ) := by
    push_cast
    ring
  unfold transcribePctH transcribePct
  rw [h1, h2, Rat.floor_intCast_div_natCast, Rat.floor_intCast_div_natCast]
  by_cases h : k < 120
  · rw [if_pos h, if_pos (hcond.mpr h)]
    push_cast
    norm_num
  · rw [if_neg h, if_neg (fun hc => h (hcond.mp hc))]
    push_cast
    norm_num

/-- The integer analysis percent coincides with the rational formula of
the source at elapsed time k/2 seconds. -/
lemma analyzePctH_eq (k : ℕ) :
    analyzePctH k = analyzePct ((k : ℚ) / 2) := by
  have h1 : (k : ℚ) / 2 / 60 * 20 = ((20 * k : ℤ) : ℚ) / ((120 : ℕ) : ℚ) := by
    push_cast
    ring
  unfold analyzePctH analyzePct
  rw [h1, Rat.floor_intCast_div_natCast]
  push_cast
  norm_num

/-- At an even elapsed second v (iteration 2v) the integer percent is the
rational formula at v. -/
lemma transcribePctH_even (v : ℕ) :
    transcribePctH (2 * v) = transcribePct (v : ℚ) := by
  rw [transcribePctH_eq]
  congr 1
  push_cast
  ring

/-- Message of a transcription tick event. -/
def transcribeMsg (v : ℕ) : String :=
  "Transcribing audio... (" ++ toString v ++ "s)"

/-- Message of an analysis tick event. -/
def analyzeMsg (v : ℕ) : String :=
  "Analyzing transcript... (" ++ toString v ++ "s)"

/-- The supervision loop of upload_service.py (lines 126-150 for
transcription, 197-214 for analysis): while the worker thread is alive, raise
a timeout once the elapsed time exceeds the budget, and emit a progress event
at every new even-numbered elapsed second.  Iteration k corresponds to
elapsed time k/2 seconds, so the timeout test elapsed > budget is the
integer test 2 * budget < k and the percent function takes the iteration
index (the bridge lemmas transcribePctH_eq and analyzePctH_eq relate it to
the rational formula of the source).  Fuel bounds the recursion and is
chosen large enough that it is never exhausted.  Returns the emitted trace
and the worker result (none encodes the raised TimeoutError). -/
def guard {α : Type} (sid stageName : String) (msgFn : ℕ → String)
    (pctFn : ℕ → Int) (budget : ℕ) (w : WorkerRun α) :
    ℕ → ℕ → ℕ → List (Chan × Event) × Option α
  | 0, _, _ => ([], Option.none)
  | fuel + 1, k, last =>
    let alive : Bool := match w with
      | .hangs => true
      | .finishes d _ => decide (k < d)
    if alive then
      if 2 * budget < k then ([], Option.none)
      else
        let eInt := k / 2
        if eInt ≠ last ∧ eInt % 2 = 0 then
          let rest := guard sid stageName msgFn pctFn budget w fuel (k + 1) eInt
          (sendProgress sid stageName (pctFn k) (msgFn eInt) ++ rest.1,
           rest.2)
        else guard sid stageName msgFn pctFn budget w fuel (k + 1) last
    else
      match w with
      | .hangs => ([], Option.none)
      | .finishes _ r => ([], some r)

/-- Sentinel stored in place of an empty or whitespace-only transcript
(upload_service.py line 158). -/
def emptySentinel : String := "[Empty transcript - audio may be silent or unclear]"

/-- Python str.strip() falsiness test used at upload_service.py line 157:
true exactly when the string is empty or whitespace-only. -/
def isBlank (s : String) : Bool := s.toList.all (fun c => c.isWhitespace)

/-!  Embedding of LLMService (llm_service.py). -/

/-- Python substring containment (the in operator on str). -/
def strContains (s pat : String) : Bool :=
  (List.range (s.length + 1)).any
    (fun i => (s.toList.drop i).take pat.length = pat.toList)

/-- Python str.strip(chars): remove any of the given characters from both
ends. -/
def stripChars (s : String) (cs : List Char) : String :=
  String.mk (((s.toList.dropWhile (fun c => c ∈ cs)).reverse.dropWhile
    (fun c => c ∈ cs)).reverse)

/-- Outcome of the language-model call plus the JSON decoding applied to its
response (llm_service.py lines 73-97).  The OpenAI client and json.loads are
external, so the embedding is parameterised by which of the four disjoint
outcomes they produced: the client raised, the response decoded to a JSON
object, it decoded to a non-object value, or decoding failed. -/
inductive EngineOutcome : Type where
  | raises (msg : String) : EngineOutcome
  | jsonDict (fields : List (String × PyVal)) : EngineOutcome
  | jsonNonDict (v : PyVal) : EngineOutcome
  | jsonInvalid (raw : String) : EngineOutcome

/-- Fallback returned for an empty transcript (llm_service.py lines 38-46). -/
def noTranscriptDict : List (String × PyVal) :=
  [("summary", .str "No transcript available."),
   ("tags", .list [.str "no-transcript"]),
   ("roles", .dict []),
   ("emotions", .list []),
   ("intent", .str "unknown"),
   ("mood", .str "neutral"),
   ("insights", .list [])]

/-- Dict returned when the engine call raises (llm_service.py lines 135-143). -/
def errorDict (msg : String) : List (String × PyVal) :=
  [("summary", .str ("Error analyzing transcript: " ++ msg)),
   ("tags", .list [.str "analysis-error"]),
   ("roles", .dict []),
   ("emotions", .list []),
   ("intent", .str "unknown"),
   ("mood", .str "neutral"),
   ("insights", .list [])]

/-- Tag keywords scanned by the fallback parser (llm_service.py line 152). -/
def tagKeywords : List String :=
  ["client wants to buy", "wrong number", "needs follow-up", "voicemail",
   "complaint", "inquiry", "sale", "support"]

/-- LLMService._fallback_parse (llm_service.py lines 145-168). -/
def fallbackParse (text : String) : List (String × PyVal) :=
  let summary :=
    if strContains text "summary" then
      stripChars ((((text.splitOn "summary").getLastD "").splitOn
        "tags").headD "") [':', ',', '\"']
    else "Unable to parse summary."
  let tags := tagKeywords.filter
    (fun kw => strContains text.toLower kw.toLower)
  let tags := if tags.isEmpty then ["other"] else tags
  [("summary", .str (summary.take 200)),
   ("tags", .list (tags.map PyVal.str)),
   ("roles", .dict []),
   ("emotions", .list []),
   ("intent", .str "unknown"),
   ("mood", .str "neutral"),
   ("insights", .list [])]

/-- Coercion applied to the tags/emotions/insights fields (llm_service.py
lines 108-113 and upload_service.py lines 238-243): keep a list, wrap a
truthy non-list into a singleton, drop a falsy non-list. -/
def coerceList : PyVal → List PyVal
  | .list l => l
  | v => if truthy v then [v] else []

/-- Coercion applied to the roles field (llm_service.py lines 114-115 and
upload_service.py lines 244-245): any non-dict becomes the empty dict. -/
def coerceDict : PyVal → List (String × PyVal)
  | .dict d => d
  | _ => []

/-- The seven analysis fields after extraction with defaults and the
list/dict coercions (identical logic at llm_service.py lines 100-115 and
upload_service.py lines 230-245). -/
structure AnalysisFields where
  summary : PyVal
  tags : List PyVal
  roles : List (String × PyVal)
  emotions : List PyVal
  intent : PyVal
  mood : PyVal
  insights : List PyVal

/-- Field extraction from a decoded JSON object. -/
def extractFields (d : List (String × PyVal)) : AnalysisFields where
  summary := pyGet d "summary" (.str "Unable to generate summary.")
  tags := coerceList (pyGet d "tags" (.list []))
  roles := coerceDict (pyGet d "roles" (.dict []))
  emotions := coerceList (pyGet d "emotions" (.list []))
  intent := pyGet d "intent" (.str "unknown")
  mood := pyGet d "mood" (.str "neutral")
  insights := coerceList (pyGet d "insights" (.list []))

/-- Rebuild the result dict of a successful parse (llm_service.py lines
118-126). -/
def fieldsToDict (f : AnalysisFields) : List (String × PyVal) :=
  [("summary", f.summary),
   ("tags", .list f.tags),
   ("roles", .dict f.roles),
   ("emotions", .list f.emotions),
   ("intent", f.intent),
   ("mood", f.mood),
   ("insights", .list f.insights)]

/-- Result of LLMService.analyze_transcript, together with whether the
language-model engine was actually invoked. -/
structure AnalyzeOutput where
  result : PyVal
  engineCalled : Bool

/-- LLMService.analyze_transcript (llm_service.py lines 27-143).  A blank
transcript short-circuits to the no-transcript dict without calling the
engine; a raised engine call and a non-object JSON value (whose .get access
raises AttributeError) are both absorbed by the outer handler into the
analysis-error dict; an undecodable response goes through the fallback
parser. -/
def analyzeTranscript (transcript : String) (eng : EngineOutcome) :
    AnalyzeOutput :=
  if isBlank transcript then ⟨.dict noTranscriptDict, false⟩
  else
    match eng with
    | .raises msg => ⟨.dict (errorDict msg), true⟩
    | .jsonNonDict _ =>
        ⟨.dict (errorDict "AttributeError: object has no attribute get"), true⟩
    | .jsonInvalid raw => ⟨.dict (fallbackParse raw), true⟩
    | .jsonDict d => ⟨.dict (fieldsToDict (extractFields d)), true⟩

/-!  Embedding of the Call Record store (database_service.py) and of the
upload pipeline coordinator (upload_service.py process_upload_async). -/

/-- A Call Record document as stored by DatabaseService (timestamps and the
tags_override field, which the pipeline never sets, are omitted). -/
structure CallRecord where
  filename : String
  audio_file_path : String
  transcript : String
  summary : PyVal
  tags : List PyVal
  tags_original : List PyVal
  roles : List (String × PyVal)
  emotions : List PyVal
  intent : PyVal
  mood : PyVal
  insights : List PyVal

/-- DatabaseService.create_call_record as invoked by the pipeline with only
filename and audio_file_path (database_service.py lines 197-219): every
content field takes its provisional default. -/
def provisionalRecord (filename audioPath : String) : CallRecord where
  filename := filename
  audio_file_path := audioPath
  transcript := ""
  summary := .str ""
  tags := []
  tags_original := []
  roles := []
  emotions := []
  intent := .str "unknown"
  mood := .str "neutral"
  insights := []

/-- DatabaseService.update_call_record as invoked by the pipeline
(database_service.py lines 246-281, with tags_override absent): sets the
transcript and every analysis field, and mirrors tags into tags_original. -/
def applyUpdate (r : CallRecord) (transcript : String) (f : AnalysisFields) :
    CallRecord :=
  { r with
    transcript := transcript
    summary := f.summary
    tags := f.tags
    tags_original := f.tags
    roles := f.roles
    emotions := f.emotions
    intent := f.intent
    mood := f.mood
    insights := f.insights }

/-- The deterministic substitute installed by upload_service.py lines 249-255
when the analysis stage fails. -/
def analysisFallbackFields : AnalysisFields where
  summary := .str
    "Analysis failed - transcript available but summary could not be generated."
  tags := [.str "analysis-error"]
  roles := []
  emotions := []
  intent := .str "unknown"
  mood := .str "neutral"
  insights := []

/-- A submission: the declared filename, the artifact size in bytes and the
caller-chosen session id. -/
structure Submission where
  sid : String
  filename : String
  size : ℕ

/-- Oracle for every external effect of one pipeline run: the result of
werkzeug secure_filename, whether file.save raised, the result of
create_call_record, and the behaviour of the transcription and analysis
worker threads.  The transcription worker yields either an error message or
the transcript returned by the speech-to-text call (an Option, as the
Python local is initialised to None); the analysis worker yields either an
error message or the value returned by analyze_transcript. -/
structure Env where
  secureName : String
  savedPath : String
  saveError : Option String
  createResult : Except String String
  transWork : WorkerRun (Except String (Option String))
  anaWork : WorkerRun (Except String PyVal)

/-- Observable outcome of one pipeline run: the emitted progress-event
trace, the final state of the Call Record (none means absent) and of the
artifact file, the record as it was first created, the arguments of every
update_call_record call, and the transcript string handed to the analysis
engine, when the analysis stage was reached. -/
structure RunResult where
  trace : List (Chan × Event)
  record : Option CallRecord
  fileSaved : Bool
  createdWith : Option CallRecord
  updateCalls : List (String × AnalysisFields)
  analyzedWith : Option String

/-- Allow-list of upload extensions (upload_service.py line 25). -/
def allowedExtensions : List String :=
  [".wav", ".mp3", ".m4a", ".ogg", ".flac", ".webm"]

/-- Python str.lower(). -/
def strLower (s : String) : String := String.mk (s.toList.map Char.toLower)

/-- Extension validation (upload_service.py line 56): the lowercased
filename must end with one of the allowed suffixes. -/
def extAllowed (filename : String) : Bool :=
  allowedExtensions.any
    (fun ext => ext.toList.isSuffixOf (strLower filename).toList)

/-- Maximum accepted upload size (upload_service.py line 64). -/
def maxUploadSize : ℕ := 100 * 1024 * 1024

/-- A run that ended before any side effect took place. -/
def noEffectResult (t : List (Chan × Event)) : RunResult where
  trace := t
  record := Option.none
  fileSaved := false
  createdWith := Option.none
  updateCalls := []
  analyzedWith := Option.none

/-- The transcription supervision loop of the pipeline, with budget 300
seconds; the fuel 602 covers the worst case, a timeout raised at iteration
601 (elapsed 300.5 seconds). -/
def transGuard (sid : String) (w : WorkerRun (Except String (Option String))) :
    List (Chan × Event) × Option (Except String (Option String)) :=
  guard sid "transcribing" transcribeMsg transcribePctH 300 w 602 0 0

/-- The analysis supervision loop, with budget 60 seconds; the fuel 122
covers the timeout raised at iteration 121 (elapsed 60.5 seconds). -/
def anaGuard (sid : String) (w : WorkerRun (Except String PyVal)) :
    List (Chan × Event) × Option (Except String PyVal) :=
  guard sid "analyzing" analyzeMsg analyzePctH 60 w 122 0 0

/-- The transcript kept after the worker result check of upload_service.py
lines 157-158: a missing, empty or whitespace-only transcript becomes the
sentinel. -/
def finalTranscript : Option String → String
  | Option.none => emptySentinel
  | some s => if isBlank s then emptySentinel else s

/-- Truncation applied before analysis (upload_service.py lines 171-176). -/
def truncatedForAnalysis (t : String) : String :=
  if 1000 < t.length then t.take 1000 ++ "... [truncated]" else t

/-- The analysis fields the pipeline keeps, from the supervised analysis
outcome (upload_service.py lines 218-255): a timeout, a raised worker, a
falsy result or a non-dict result all fall back to the deterministic
substitute; a truthy dict goes through extraction and coercions. -/
def analysisOutcomeFields : Option (Except String PyVal) → AnalysisFields
  | Option.none => analysisFallbackFields
  | some (.error _) => analysisFallbackFields
  | some (.ok v) =>
      if truthy v then
        match v with
        | .dict d => extractFields d
        | _ => analysisFallbackFields
      else analysisFallbackFields

/-- The body of the background thread transcription_progress
(upload_service.py lines 101-289).  An exception raised after the error
event of a failed transcription propagates out of the daemon thread, so no
cleanup of the record or of the artifact happens there; an analysis failure
of any kind is absorbed into the fallback fields and the pipeline proceeds
to saving and to the complete event. -/
def threadBody (sid : String) (env : Env) (created : CallRecord) : RunResult :=
  let g := transGuard sid env.transWork
  let pre := sendProgress sid "transcribing" 35 "Processing audio..." ++ g.1
  match g.2 with
  | Option.none =>
      { trace := pre ++ sendProgress sid "error" 0
          "Transcription failed: Transcription timed out after 5 minutes"
        record := some created
        fileSaved := true
        createdWith := some created
        updateCalls := []
        analyzedWith := Option.none }
  | some (.error m) =>
      { trace := pre ++ sendProgress sid "error" 0 ("Transcription failed: " ++ m)
        record := some created
        fileSaved := true
        createdWith := some created
        updateCalls := []
        analyzedWith := Option.none }
  | some (.ok t0) =>
      let transcript := finalTranscript t0
      let transcriptForAnalysis := truncatedForAnalysis transcript
      let a := anaGuard sid env.anaWork
      let fields := analysisOutcomeFields a.2
      { trace := pre
          ++ sendProgress sid "transcribing" 70 "Transcription complete"
          ++ sendProgress sid "analyzing" 70 "Analyzing transcript..."
          ++ a.1
          ++ sendProgress sid "analyzing" 90 "Analysis complete"
          ++ sendProgress sid "saving" 90 "Saving results..."
          ++ sendProgress sid "complete" 100 "Processing complete!"
        record := some (applyUpdate created transcript fields)
        fileSaved := true
        createdWith := some created
        updateCalls := [(transcript, fields)]
        analyzedWith := some transcriptForAnalysis }

/-- UploadService.process_upload_async (upload_service.py lines 43-324):
validation, artifact save, provisional record creation, then the background
thread.  A failure before the thread starts is caught by the outer handler,
which emits the error event and performs the cleanup of whatever was
created. -/
def runPipeline (sub : Submission) (env : Env) : RunResult :=
  let sid := sub.sid
  let t0 := sendProgress sid "uploading" 0 "Validating file..."
  if sub.filename = "" then
    noEffectResult (t0 ++ sendProgress sid "error" 0 "No file selected")
  else if extAllowed sub.filename = false then
    noEffectResult (t0 ++ sendProgress sid "error" 0 "Invalid file type")
  else if maxUploadSize < sub.size then
    noEffectResult (t0 ++ sendProgress sid "error" 0 "File too large (max 100MB)")
  else if sub.size = 0 then
    noEffectResult (t0 ++ sendProgress sid "error" 0 "File is empty")
  else
    let t1 := t0 ++ sendProgress sid "uploading" 10 "Saving file..."
    if env.secureName = "" then
      noEffectResult (t1 ++ sendProgress sid "error" 0 "Invalid filename")
    else
      match env.saveError with
      | some m =>
          noEffectResult (t1 ++ sendProgress sid "error" 0 ("Error: " ++ m))
      | Option.none =>
        let t2 := t1 ++ sendProgress sid "uploading" 20 "File saved"
          ++ sendProgress sid "processing" 25 "Creating call record..."
        match env.createResult with
        | .error m =>
            noEffectResult (t2 ++ sendProgress sid "error" 0 ("Error: " ++ m))
        | .ok _ =>
          let created := provisionalRecord env.secureName env.savedPath
          let t3 := t2 ++ sendProgress sid "processing" 30 "Call record created"
            ++ sendProgress sid "transcribing" 30 "Starting transcription..."
          let body := threadBody sid env created
          { body with trace := t3 ++ body.trace }

/-- Percent values observed by a subscriber of the session room. -/
def sessionPercents (r : RunResult) (sid : String) : List Int :=
  (observed r.trace (Chan.room sid)).map (fun e => e.progress)

/-- Count of terminal events (stage complete or error) in an event list. -/
def countTerminal (es : List Event) : ℕ :=
  es.countP (fun e => e.stage == "complete" || e.stage == "error")

/-- Count of events of one given stage. -/
def countStage (es : List Event) (st : String) : ℕ :=
  es.countP (fun e => e.stage == st)

/-!  Basic lemmas on observation and counting. -/

@[simp] lemma observed_nil (c : Chan) : observed [] c = [] := rfl

@[simp] lemma observed_append (a b : List (Chan × Event)) (c : Chan) :
    observed (a ++ b) c = observed a c ++ observed b c := by
  simp [observed, List.filter_append]

@[simp] lemma observed_sendProgress_room (sid st : String) (p : Int)
    (m : String) :
    observed (sendProgress sid st p m) (Chan.room sid) =
      [⟨sid, st, p, m⟩] := by
  simp [observed, sendProgress, List.filter]

@[simp] lemma observed_sendProgress_broadcast (sid st : String) (p : Int)
    (m : String) :
    observed (sendProgress sid st p m) Chan.broadcast =
      [⟨sid, st, p, m⟩] := by
  simp [observed, sendProgress, List.filter]

@[simp] lemma countTerminal_append (a b : List Event) :
    countTerminal (a ++ b) = countTerminal a + countTerminal b := by
  simp [countTerminal, List.countP_append]

@[simp] lemma countStage_append (a b : List Event) (st : String) :
    countStage (a ++ b) st = countStage a st + countStage b st := by
  simp [countStage, List.countP_append]

@[simp] lemma countTerminal_nil : countTerminal [] = 0 := rfl

@[simp] lemma countStage_nil (st : String) : countStage [] st = 0 := rfl

@[simp] lemma countTerminal_cons (e : Event) (es : List Event) :
    countTerminal (e :: es) =
      (if e.stage = "complete" ∨ e.stage = "error" then 1 else 0)
        + countTerminal es := by
  by_cases h : e.stage = "complete" ∨ e.stage = "error"
  all_goals simp [countTerminal, List.countP_cons, h]
  all_goals omega

@[simp] lemma countStage_cons (e : Event) (es : List Event) (st : String) :
    countStage (e :: es) st =
      (if e.stage = st then 1 else 0) + countStage es st := by
  by_cases h : e.stage = st
  all_goals simp [countStage, List.countP_cons, h]
  all_goals omega

/-!  Lemmas on the supervision loop. -/

section GuardLemmas

variable {α : Type} (sid stageName : String) (msgFn : ℕ → String)
  (pctFn : ℕ → Int) (budget : ℕ)

/-- Region in which a worker can still be observed alive by the guard. -/
def aliveBound (budget : ℕ) (w : WorkerRun α) (v : ℕ) : Prop :=
  match w with
  | .finishes d _ => v < d
  | .hangs => v ≤ 2 * budget

/-- Every event in the guard trace was emitted at some iteration v at or
after the starting iteration: it carries the guard's stage and session, the
percent computed from elapsed time v/2, the tick message, and v lies inside
the alive region and under the timeout budget. -/
lemma guard_mem (w : WorkerRun α) : ∀ (fuel k last : ℕ)
    (ce : Chan × Event),
    ce ∈ (guard sid stageName msgFn pctFn budget w fuel k last).1 →
    ∃ v : ℕ, k ≤ v ∧ aliveBound budget w v ∧ v ≤ 2 * budget ∧
      ce.2 = ⟨sid, stageName, pctFn v, msgFn (v / 2)⟩ := by
  intro fuel
  induction fuel with
  | zero => intro k last ce h; simp [guard] at h
  | succ n ih =>
    intro k last ce h
    simp only [guard] at h
    rcases w with ⟨d, r⟩ | _
    · by_cases hk : k < d
      · rw [if_pos (decide_eq_true hk)] at h
        by_cases hto : 2 * budget < k
        · simp [hto] at h
        · simp only [if_neg hto] at h
          by_cases hem : k / 2 ≠ last ∧ k / 2 % 2 = 0
          · rw [if_pos hem] at h
            rcases List.mem_append.mp h with hl | hr
            · refine ⟨k, le_refl k, hk, by omega, ?_⟩
              simp [sendProgress] at hl
              rcases hl with h1 | h1 <;> simp [h1]
            · obtain ⟨v, hv1, hv2, hv3, hv4⟩ := ih (k + 1) (k / 2) ce hr
              exact ⟨v, by omega, hv2, hv3, hv4⟩
          · rw [if_neg hem] at h
            obtain ⟨v, hv1, hv2, hv3, hv4⟩ := ih (k + 1) last ce h
            exact ⟨v, by omega, hv2, hv3, hv4⟩
      · simp [hk] at h
    · simp only [if_true] at h
      by_cases hto : 2 * budget < k
      · simp [hto] at h
      · simp only [if_neg hto] at h
        by_cases hem : k / 2 ≠ last ∧ k / 2 % 2 = 0
        · rw [if_pos hem] at h
          rcases List.mem_append.mp h with hl | hr
          · refine ⟨k, le_refl k, (by omega : k ≤ 2 * budget), by omega, ?_⟩
            simp [sendProgress] at hl
            rcases hl with h1 | h1 <;> simp [h1]
          · obtain ⟨v, hv1, hv2, hv3, hv4⟩ := ih (k + 1) (k / 2) ce hr
            exact ⟨v, by omega, hv2, hv3, hv4⟩
        · rw [if_neg hem] at h
          obtain ⟨v, hv1, hv2, hv3, hv4⟩ := ih (k + 1) last ce h
          exact ⟨v, by omega, hv2, hv3, hv4⟩

/-- A hung worker never yields a result: the guard reports a timeout. -/
lemma guard_hangs_none : ∀ (fuel k last : ℕ),
    (guard sid stageName msgFn pctFn budget (WorkerRun.hangs (α := α))
      fuel k last).2 = Option.none := by
  intro fuel
  induction fuel with
  | zero => intro k last; simp [guard]
  | succ n ih =>
    intro k last
    simp only [guard]
    by_cases hto : 2 * budget < k
    · simp [hto]
    · simp only [if_neg hto, if_true]
      by_cases hem : k / 2 ≠ last ∧ k / 2 % 2 = 0
      · simp only [if_pos hem]
        exact ih (k + 1) (k / 2)
      · simp only [if_neg hem]
        exact ih (k + 1) last

/-- A worker that finishes within the budget yields its result to the
guard. -/
lemma guard_finishes_some (d : ℕ) (r : α) (hd : d ≤ 2 * budget + 1) :
    ∀ (fuel k last : ℕ), d - k < fuel →
    (guard sid stageName msgFn pctFn budget (WorkerRun.finishes d r)
      fuel k last).2 = some r := by
  intro fuel
  induction fuel with
  | zero => intro k last hf; omega
  | succ n ih =>
    intro k last hf
    simp only [guard]
    by_cases hk : k < d
    · rw [if_pos (decide_eq_true hk)]
      have hto : ¬ (2 * budget < k) := by omega
      rw [if_neg hto]
      by_cases hem : k / 2 ≠ last ∧ k / 2 % 2 = 0
      · simp only [if_pos hem]
        exact ih (k + 1) (k / 2) (by omega)
      · simp only [if_neg hem]
        exact ih (k + 1) last (by omega)
    · rw [if_neg (by simp [hk])]

/-- A worker that outlives the timeout boundary is reported as timed out. -/
lemma guard_finishes_timeout (d : ℕ) (r : α) (hd : 2 * budget + 1 < d) :
    ∀ (fuel k last : ℕ), 2 * budget + 2 ≤ fuel + k → k ≤ 2 * budget + 1 →
    (guard sid stageName msgFn pctFn budget (WorkerRun.finishes d r)
      fuel k last).2 = Option.none := by
  intro fuel
  induction fuel with
  | zero => intro k last hf hk; omega
  | succ n ih =>
    intro k last hf hk
    simp only [guard]
    rw [if_pos (decide_eq_true (by omega : k < d))]
    by_cases hto : 2 * budget < k
    · simp [hto]
    · have hk2 : k ≤ 2 * budget := by omega
      rw [if_neg hto]
      by_cases hem : k / 2 ≠ last ∧ k / 2 % 2 = 0
      · simp only [if_pos hem]
        exact ih (k + 1) (k / 2) (by omega) (by omega)
      · simp only [if_neg hem]
        exact ih (k + 1) last (by omega) (by omega)

/-- When the percent function is monotone over the region the loop can
visit, the emitted percents are pairwise non-decreasing along the trace. -/
lemma guard_sorted (w : WorkerRun α)
    (hm : ∀ v v' : ℕ, v ≤ v' → aliveBound budget w v' →
      v' ≤ 2 * budget →
      pctFn v ≤ pctFn v') :
    ∀ (fuel k last : ℕ),
    ((guard sid stageName msgFn pctFn budget w fuel k last).1).Pairwise
      (fun a b => a.2.progress ≤ b.2.progress) := by
  intro fuel
  induction fuel with
  | zero => intro k last; simp [guard]
  | succ n ih =>
    intro k last
    simp only [guard]
    rcases w with ⟨d, r⟩ | _
    · by_cases hk : k < d
      · rw [if_pos (decide_eq_true hk)]
        by_cases hto : 2 * budget < k
        · simp [hto]
        · rw [if_neg hto]
          by_cases hem : k / 2 ≠ last ∧ k / 2 % 2 = 0
          · rw [if_pos hem]
            rw [List.pairwise_append]
            refine ⟨by simp [sendProgress], ih (k + 1) (k / 2), ?_⟩
            intro a ha b hb
            obtain ⟨v, hv1, hv2, hv3, hv4⟩ :=
              guard_mem sid stageName msgFn pctFn budget _ n (k + 1)
                (k / 2) b hb
            have hpa : a.2.progress = pctFn k := by
              simp [sendProgress] at ha
              rcases ha with h1 | h1 <;> simp [h1]
            rw [hpa, hv4]
            exact hm k v (by omega) hv2 hv3
          · rw [if_neg hem]
            exact ih (k + 1) last
      · rw [if_neg (by simp [hk])]
        simp
    · rw [if_pos rfl]
      by_cases hto : 2 * budget < k
      · simp [hto]
      · rw [if_neg hto]
        by_cases hem : k / 2 ≠ last ∧ k / 2 % 2 = 0
        · rw [if_pos hem]
          rw [List.pairwise_append]
          refine ⟨by simp [sendProgress], ih (k + 1) (k / 2), ?_⟩
          intro a ha b hb
          obtain ⟨v, hv1, hv2, hv3, hv4⟩ :=
            guard_mem sid stageName msgFn pctFn budget _ n (k + 1)
              (k / 2) b hb
          have hpa : a.2.progress = pctFn k := by
            simp [sendProgress] at ha
            rcases ha with h1 | h1 <;> simp [h1]
          rw [hpa, hv4]
          exact hm k v (by omega) hv2 hv3
        · rw [if_neg hem]
          exact ih (k + 1) last

/-- Ticks fire only at even-numbered whole elapsed seconds: every emitted
event carries the percent and message computed at an even integer number of
elapsed seconds.  The three numeric premises are the reachability invariant
of the loop state, satisfied by the initial state (k, last) = (0, 0). -/
lemma guard_even_tick (w : WorkerRun α) : ∀ (fuel k last : ℕ),
    last % 2 = 0 → last ≤ k / 2 → k / 2 ≤ last + 2 →
    (k / 2 = last + 2 → k % 2 = 0) →
    ∀ ce ∈ (guard sid stageName msgFn pctFn budget w fuel k last).1,
    ∃ v : ℕ, v % 2 = 0 ∧
      ce.2 = ⟨sid, stageName, pctFn (2 * v), msgFn v⟩ := by
  intro fuel
  induction fuel with
  | zero => intro k last _ _ _ _ ce h; simp [guard] at h
  | succ n ih =>
    intro k last h1 h2 h3 h4 ce h
    simp only [guard] at h
    have halive : ∀ (b : Bool) (x y : List (Chan × Event) × Option α),
        (if b = true then x else y) = if b = true then x else y := fun _ _ _ => rfl
    rcases w with ⟨d, r⟩ | _
    · by_cases hk : k < d
      · rw [if_pos (decide_eq_true hk)] at h
        by_cases hto : 2 * budget < k
        · simp [hto] at h
        · rw [if_neg hto] at h
          by_cases hem : k / 2 ≠ last ∧ k / 2 % 2 = 0
          · rw [if_pos hem] at h
            rcases List.mem_append.mp h with hl | hr
            · have hke : k % 2 = 0 := h4 (by omega)
              have hk2 : 2 * (k / 2) = k := by omega
              refine ⟨k / 2, hem.2, ?_⟩
              simp [sendProgress] at hl
              rcases hl with hl | hl
              all_goals rw [hl]
              all_goals simp [hk2]
            · exact ih (k + 1) (k / 2) hem.2 (by omega) (by omega)
                (by omega) ce hr
          · rw [if_neg hem] at h
            push_neg at hem
            by_cases heq : k / 2 = last
            · exact ih (k + 1) last h1 (by omega) (by omega) (by omega) ce h
            · have hodd : k / 2 % 2 = 1 := by
                rcases Nat.mod_two_eq_zero_or_one (k / 2) with h0 | h0
                · exact absurd h0 (by simpa [heq] using hem heq)
                · exact h0
              exact ih (k + 1) last h1 (by omega) (by omega) (by omega) ce h
      · rw [if_neg (by simp [hk])] at h
        simp at h
    · rw [if_pos rfl] at h
      by_cases hto : 2 * budget < k
      · simp [hto] at h
      · rw [if_neg hto] at h
        by_cases hem : k / 2 ≠ last ∧ k / 2 % 2 = 0
        · rw [if_pos hem] at h
          rcases List.mem_append.mp h with hl | hr
          · have hke : k % 2 = 0 := h4 (by omega)
            have hk2 : 2 * (k / 2) = k := by omega
            refine ⟨k / 2, hem.2, ?_⟩
            simp [sendProgress] at hl
            rcases hl with hl | hl
            all_goals rw [hl]
            all_goals simp [hk2]
          · exact ih (k + 1) (k / 2) hem.2 (by omega) (by omega)
              (by omega) ce hr
        · rw [if_neg hem] at h
          push_neg at hem
          by_cases heq : k / 2 = last
          · exact ih (k + 1) last h1 (by omega) (by omega) (by omega) ce h
          · have hodd : k / 2 % 2 = 1 := by
              rcases Nat.mod_two_eq_zero_or_one (k / 2) with h0 | h0
              · exact absurd h0 (by simpa [heq] using hem heq)
              · exact h0
            exact ih (k + 1) last h1 (by omega) (by omega) (by omega) ce h

/-- Every event observed out of a guard trace carries the guard's stage. -/
lemma observed_guard_stage (w : WorkerRun α) (fuel k last : ℕ) (c : Chan) :
    ∀ e ∈ observed
      (guard sid stageName msgFn pctFn budget w fuel k last).1 c,
      e.stage = stageName := by
  intro e he
  simp only [observed, List.mem_map] at he
  obtain ⟨ce, hce, rfl⟩ := he
  have hce2 := List.mem_filter.mp hce
  obtain ⟨v, _, _, _, h4⟩ :=
    guard_mem sid stageName msgFn pctFn budget w fuel k last ce hce2.1
  rw [h4]

/-- A guard whose stage is neither complete nor error contributes no
terminal event. -/
lemma countTerminal_observed_guard (w : WorkerRun α) (fuel k last : ℕ)
    (c : Chan) (h1 : stageName ≠ "complete") (h2 : stageName ≠ "error") :
    countTerminal (observed
      (guard sid stageName msgFn pctFn budget w fuel k last).1 c) = 0 := by
  rw [countTerminal, List.countP_eq_zero]
  intro e he
  have := observed_guard_stage sid stageName msgFn pctFn budget w fuel k
    last c e he
  simp [this, h1, h2]

/-- A guard contributes no event of a foreign stage. -/
lemma countStage_observed_guard (w : WorkerRun α) (fuel k last : ℕ)
    (c : Chan) (st : String) (hne : st ≠ stageName) :
    countStage (observed
      (guard sid stageName msgFn pctFn budget w fuel k last).1 c) st = 0 := by
  rw [countStage, List.countP_eq_zero]
  intro e he
  have := observed_guard_stage sid stageName msgFn pctFn budget w fuel k
    last c e he
  simp [this]
  exact fun hc => absurd hc.symm hne

end GuardLemmas

/-- Reduction of the thread body when the transcription guard reports a
timeout. -/
lemma threadBody_timeout (sid : String) (env : Env) (created : CallRecord)
    (hg : (transGuard sid env.transWork).2 = Option.none) :
    threadBody sid env created =
      { trace := sendProgress sid "transcribing" 35 "Processing audio..."
          ++ (transGuard sid env.transWork).1
          ++ sendProgress sid "error" 0
            "Transcription failed: Transcription timed out after 5 minutes"
        record := some created
        fileSaved := true
        createdWith := some created
        updateCalls := []
        analyzedWith := Option.none } := by
  simp only [threadBody, hg]

/-- Reduction of the thread body when the transcription worker raised. -/
lemma threadBody_transError (sid : String) (env : Env) (created : CallRecord)
    (m : String)
    (hg : (transGuard sid env.transWork).2 = some (.error m)) :
    threadBody sid env created =
      { trace := sendProgress sid "transcribing" 35 "Processing audio..."
          ++ (transGuard sid env.transWork).1
          ++ sendProgress sid "error" 0 ("Transcription failed: " ++ m)
        record := some created
        fileSaved := true
        createdWith := some created
        updateCalls := []
        analyzedWith := Option.none } := by
  simp only [threadBody, hg]

/-- Reduction of the thread body when the transcription worker returned a
transcript. -/
lemma threadBody_ok (sid : String) (env : Env) (created : CallRecord)
    (t0 : Option String)
    (hg : (transGuard sid env.transWork).2 = some (.ok t0)) :
    threadBody sid env created =
      { trace := sendProgress sid "transcribing" 35 "Processing audio..."
          ++ (transGuard sid env.transWork).1
          ++ sendProgress sid "transcribing" 70 "Transcription complete"
          ++ sendProgress sid "analyzing" 70 "Analyzing transcript..."
          ++ (anaGuard sid env.anaWork).1
          ++ sendProgress sid "analyzing" 90 "Analysis complete"
          ++ sendProgress sid "saving" 90 "Saving results..."
          ++ sendProgress sid "complete" 100 "Processing complete!"
        record := some (applyUpdate created (finalTranscript t0)
          (analysisOutcomeFields (anaGuard sid env.anaWork).2))
        fileSaved := true
        createdWith := some created
        updateCalls := [(finalTranscript t0,
          analysisOutcomeFields (anaGuard sid env.anaWork).2)]
        analyzedWith := some (truncatedForAnalysis (finalTranscript t0)) } := by
  simp only [threadBody, hg]

/-- Reduction of the pipeline on a valid submission whose save and record
creation succeed: the full run is the six leading events followed by the
thread body. -/
lemma runPipeline_valid (sub : Submission) (env : Env) (cid : String)
    (h1 : sub.filename ≠ "") (h2 : extAllowed sub.filename = true)
    (h3 : ¬ maxUploadSize < sub.size) (h4 : sub.size ≠ 0)
    (h5 : env.secureName ≠ "") (h6 : env.saveError = Option.none)
    (h7 : env.createResult = .ok cid) :
    runPipeline sub env =
      { threadBody sub.sid env
          (provisionalRecord env.secureName env.savedPath) with
        trace := sendProgress sub.sid "uploading" 0 "Validating file..."
          ++ sendProgress sub.sid "uploading" 10 "Saving file..."
          ++ sendProgress sub.sid "uploading" 20 "File saved"
          ++ sendProgress sub.sid "processing" 25 "Creating call record..."
          ++ sendProgress sub.sid "processing" 30 "Call record created"
          ++ sendProgress sub.sid "transcribing" 30 "Starting transcription..."
          ++ (threadBody sub.sid env
              (provisionalRecord env.secureName env.savedPath)).trace } := by
  simp only [runPipeline, h6, h7]
  rw [if_neg h1, if_neg (by simp [h2]), if_neg h3, if_neg h4, if_neg h5]

/-- The thread body emits exactly one terminal event, whatever the workers
and the record store do. -/
lemma threadBody_one_terminal (sid : String) (env : Env)
    (created : CallRecord) :
    countTerminal (observed (threadBody sid env created).trace
      (Chan.room sid)) = 1 := by
  have hT := countTerminal_observed_guard sid "transcribing" transcribeMsg
    transcribePctH 300 env.transWork 602 0 0 (Chan.room sid)
    (by decide) (by decide)
  have hA := countTerminal_observed_guard sid "analyzing" analyzeMsg
    analyzePctH 60 env.anaWork 122 0 0 (Chan.room sid)
    (by decide) (by decide)
  rcases hg : (transGuard sid env.transWork).2 with _ | r
  · simp only [threadBody, hg]
    simp [transGuard] at hg ⊢
    simp [countTerminal_append, hT, countTerminal_cons]
  · rcases r with m | t0
    · simp only [threadBody, hg]
      simp [transGuard] at hg ⊢
      simp [countTerminal_append, hT, countTerminal_cons]
    · simp only [threadBody, hg]
      simp [transGuard, anaGuard] at hg ⊢
      simp [countTerminal_append, hT, hA, countTerminal_cons]

/-- C3: for every submission, valid or not, and every behaviour of the
collaborators, the event stream observed on the session channel contains
exactly one terminal event, one with stage complete or one with stage
error. -/
theorem pipeline_exactly_one_terminal (sub : Submission) (env : Env) :
    countTerminal (observed (runPipeline sub env).trace
      (Chan.room sub.sid)) = 1 := by
  by_cases h1 : sub.filename = ""
  · simp [runPipeline, h1, noEffectResult]
  · by_cases h2 : extAllowed sub.filename = false
    · simp [runPipeline, h1, h2, noEffectResult]
    · by_cases h3 : maxUploadSize < sub.size
      · simp [runPipeline, h1, h2, h3, noEffectResult]
      · by_cases h4 : sub.size = 0
        · simp [runPipeline, h1, h2, h3, h4, noEffectResult]
        · by_cases h5 : env.secureName = ""
          · simp [runPipeline, h1, h2, h3, h4, h5, noEffectResult]
          · rcases h6 : env.saveError with _ | m
            · rcases h7 : env.createResult with m | cid
              · simp [runPipeline, h1, h2, h3, h4, h5, h6, h7,
                  noEffectResult]
              · simp [runPipeline, h1, h2, h3, h4, h5, h6, h7,
                  threadBody_one_terminal]
            · simp [runPipeline, h1, h2, h3, h4, h5, h6, noEffectResult]

/-!  Concrete fixtures shared by the claim instances. -/

/-- A well-formed 50-byte wav submission on session s1. -/
def subW : Submission := ⟨"s1", "call.wav", 50⟩

/-- An environment in which every collaborator behaves: the file saves, the
record is created, transcription returns a transcript after one second, and
the analysis engine returns a well-formed result immediately. -/
def envOK : Env where
  secureName := "call.wav"
  savedPath := "uploads/u.wav"
  saveError := Option.none
  createResult := .ok "id1"
  transWork := .finishes 2 (.ok (some "hello world"))
  anaWork := .finishes 0 (.ok (.dict
    [("summary", .str "short call"), ("tags", .list [.str "inquiry"])]))

/-- The same environment with a transcription worker that never returns. -/
def envHang : Env where
  secureName := "call.wav"
  savedPath := "uploads/u.wav"
  saveError := Option.none
  createResult := .ok "id1"
  transWork := WorkerRun.hangs
  anaWork := .finishes 0 (.ok (.dict
    [("summary", .str "short call"), ("tags", .list [.str "inquiry"])]))

/-- C1: on a transcription timeout the pipeline does emit the error
terminal event, but the Call Record is NOT deleted and the artifact file is
NOT removed: the raise after the error event escapes the daemon thread, so
the cleanup of the outer exception handler of process_upload_async never
runs.  This evaluates the code at the failing input (a transcription worker
that exceeds the 300-second budget). -/
theorem timeout_keeps_record_and_artifact :
    countStage (observed (runPipeline subW envHang).trace
      (Chan.room "s1")) "error" = 1 ∧
    countStage (observed (runPipeline subW envHang).trace
      (Chan.room "s1")) "complete" = 0 ∧
    (runPipeline subW envHang).record =
      some (provisionalRecord "call.wav" "uploads/u.wav") ∧
    (runPipeline subW envHang).fileSaved = true := by
  have hg : (transGuard "s1" envHang.transWork).2 = Option.none := by
    show (guard "s1" "transcribing" transcribeMsg transcribePctH 300
      WorkerRun.hangs 602 0 0).2 = Option.none
    exact guard_hangs_none "s1" "transcribing" transcribeMsg transcribePctH
      300 602 0 0
  have hrun := runPipeline_valid subW envHang "id1"
    (by decide) (by decide) (by decide) (by decide) (by decide) rfl rfl
  have hbody := threadBody_timeout "s1" envHang
    (provisionalRecord "call.wav" "uploads/u.wav") hg
  have hGe := countStage_observed_guard "s1" "transcribing" transcribeMsg
    transcribePctH 300 (WorkerRun.hangs (α := Except String (Option String)))
    602 0 0 (Chan.room "s1") "error" (by decide)
  have hGc := countStage_observed_guard "s1" "transcribing" transcribeMsg
    transcribePctH 300 (WorkerRun.hangs (α := Except String (Option String)))
    602 0 0 (Chan.room "s1") "complete" (by decide)
  rw [hrun]
  simp only [show subW.sid = "s1" from rfl,
    show envHang.secureName = "call.wav" from rfl,
    show envHang.savedPath = "uploads/u.wav" from rfl]
  rw [hbody]
  refine ⟨?_, ?_, rfl, rfl⟩
  · simp only [show envHang.transWork =
      WorkerRun.hangs (α := Except String (Option String)) from rfl,
      transGuard]
    simp [countStage_append, hGe, countStage_cons]
  · simp only [show envHang.transWork =
      WorkerRun.hangs (α := Except String (Option String)) from rfl,
      transGuard]
    simp [countStage_append, hGc, countStage_cons]

/-- C6: a submission failing validation (empty filename, extension outside
the allow-list, oversize, or empty file) yields an immediate error terminal
event and no side effect: no record is created, no artifact is written, no
update is issued. -/
theorem validation_failure_no_side_effect (sub : Submission) (env : Env)
    (h : sub.filename = "" ∨ extAllowed sub.filename = false ∨
      maxUploadSize < sub.size ∨ sub.size = 0) :
    countStage (observed (runPipeline sub env).trace
      (Chan.room sub.sid)) "error" = 1 ∧
    countStage (observed (runPipeline sub env).trace
      (Chan.room sub.sid)) "complete" = 0 ∧
    (runPipeline sub env).record = Option.none ∧
    (runPipeline sub env).fileSaved = false ∧
    (runPipeline sub env).createdWith = Option.none ∧
    (runPipeline sub env).updateCalls = [] := by
  by_cases h1 : sub.filename = ""
  · simp [runPipeline, h1, noEffectResult]
  · by_cases h2 : extAllowed sub.filename = false
    · simp [runPipeline, h1, h2, noEffectResult]
    · by_cases h3 : maxUploadSize < sub.size
      · simp [runPipeline, h1, h2, h3, noEffectResult]
      · by_cases h4 : sub.size = 0
        · simp [runPipeline, h1, h2, h3, h4, noEffectResult]
        · rcases h with h | h | h | h
          · exact absurd h h1
          · exact absurd h h2
          · exact absurd h h3
          · exact absurd h h4

/-- Witness for C6: a .pdf upload is rejected with an error event and no
side effect. -/
theorem validation_failure_no_side_effect_witness :
    extAllowed "doc.pdf" = false ∧
    (countStage (observed (runPipeline ⟨"s1", "doc.pdf", 50⟩ envOK).trace
      (Chan.room "s1")) "error" = 1 ∧
    countStage (observed (runPipeline ⟨"s1", "doc.pdf", 50⟩ envOK).trace
      (Chan.room "s1")) "complete" = 0 ∧
    (runPipeline ⟨"s1", "doc.pdf", 50⟩ envOK).record = Option.none ∧
    (runPipeline ⟨"s1", "doc.pdf", 50⟩ envOK).fileSaved = false ∧
    (runPipeline ⟨"s1", "doc.pdf", 50⟩ envOK).createdWith = Option.none ∧
    (runPipeline ⟨"s1", "doc.pdf", 50⟩ envOK).updateCalls = []) :=
  ⟨by decide, validation_failure_no_side_effect ⟨"s1", "doc.pdf", 50⟩ envOK
    (Or.inr (Or.inl (by decide)))⟩

/-- Within a guard trace, the session room and the broadcast channel see
the same event stream. -/
lemma observed_guard_dual {α : Type} (sid stageName : String)
    (msgFn : ℕ → String) (pctFn : ℕ → Int) (budget : ℕ) (w : WorkerRun α) :
    ∀ (fuel k last : ℕ),
    observed (guard sid stageName msgFn pctFn budget w fuel k last).1
        (Chan.room sid) =
      observed (guard sid stageName msgFn pctFn budget w fuel k last).1
        Chan.broadcast := by
  intro fuel
  induction fuel with
  | zero => intro k last; simp [guard]
  | succ n ih =>
    intro k last
    simp only [guard]
    rcases w with ⟨d, r⟩ | _
    · by_cases hk : k < d
      · rw [if_pos (decide_eq_true hk)]
        by_cases hto : 2 * budget < k
        · simp [hto]
        · rw [if_neg hto]
          by_cases hem : k / 2 ≠ last ∧ k / 2 % 2 = 0
          · rw [if_pos hem]
            simp only [observed_append, observed_sendProgress_room,
              observed_sendProgress_broadcast, ih (k + 1) (k / 2)]
          · rw [if_neg hem]
            exact ih (k + 1) last
      · rw [if_neg (by simp [hk])]
        simp
    · rw [if_pos rfl]
      by_cases hto : 2 * budget < k
      · simp [hto]
      · rw [if_neg hto]
        by_cases hem : k / 2 ≠ last ∧ k / 2 % 2 = 0
        · rw [if_pos hem]
          simp only [observed_append, observed_sendProgress_room,
            observed_sendProgress_broadcast, ih (k + 1) (k / 2)]
        · rw [if_neg hem]
          exact ih (k + 1) last

/-- The thread body delivers identical streams on both channels. -/
lemma threadBody_dual (sid : String) (env : Env) (created : CallRecord) :
    observed (threadBody sid env created).trace (Chan.room sid) =
      observed (threadBody sid env created).trace Chan.broadcast := by
  have hT := observed_guard_dual sid "transcribing" transcribeMsg
    transcribePctH 300 env.transWork 602 0 0
  have hA := observed_guard_dual sid "analyzing" analyzeMsg
    analyzePctH 60 env.anaWork 122 0 0
  rcases hg : (transGuard sid env.transWork).2 with _ | r
  · simp only [threadBody, hg]
    simp [transGuard] at hT ⊢
    simp [hT]
  · rcases r with m | t0
    · simp only [threadBody, hg]
      simp [transGuard] at hT ⊢
      simp [hT]
    · simp only [threadBody, hg]
      simp [transGuard, anaGuard] at hT hA ⊢
      simp [hT, hA]

/-- C8: every published progress event reaches both the session room and
the global broadcast channel with the identical payload: over any full run
the two observed streams coincide (and one publish is by construction the
two-element trace holding the same event on each channel). -/
theorem publish_dual_channel (sub : Submission) (env : Env) :
    observed (runPipeline sub env).trace (Chan.room sub.sid) =
      observed (runPipeline sub env).trace Chan.broadcast ∧
    ∀ (sid st : String) (p : Int) (m : String),
      sendProgress sid st p m =
        [(Chan.room sid, ⟨sid, st, p, m⟩),
         (Chan.broadcast, ⟨sid, st, p, m⟩)] := by
  refine ⟨?_, fun _ _ _ _ => rfl⟩
  by_cases h1 : sub.filename = ""
  · simp [runPipeline, h1, noEffectResult]
  · by_cases h2 : extAllowed sub.filename = false
    · simp [runPipeline, h1, h2, noEffectResult]
    · by_cases h3 : maxUploadSize < sub.size
      · simp [runPipeline, h1, h2, h3, noEffectResult]
      · by_cases h4 : sub.size = 0
        · simp [runPipeline, h1, h2, h3, h4, noEffectResult]
        · by_cases h5 : env.secureName = ""
          · simp [runPipeline, h1, h2, h3, h4, h5, noEffectResult]
          · rcases h6 : env.saveError with _ | m
            · rcases h7 : env.createResult with m | cid
              · simp [runPipeline, h1, h2, h3, h4, h5, h6, h7,
                  noEffectResult]
              · simp [runPipeline, h1, h2, h3, h4, h5, h6, h7,
                  threadBody_dual]
            · simp [runPipeline, h1, h2, h3, h4, h5, h6, noEffectResult]

/-- In every outcome of the thread body, the created record is the one
passed in, at most one update is issued, and an update implies the final
record is exactly the created record overwritten with the update arguments,
with one saving event and one complete event in the stream. -/
lemma threadBody_updates (sid : String) (env : Env) (created : CallRecord) :
    (threadBody sid env created).createdWith = some created ∧
    (threadBody sid env created).updateCalls.length ≤ 1 ∧
    ∀ uc ∈ (threadBody sid env created).updateCalls,
      (threadBody sid env created).record =
        some (applyUpdate created uc.1 uc.2) ∧
      countStage (observed (threadBody sid env created).trace
        (Chan.room sid)) "saving" = 1 ∧
      countStage (observed (threadBody sid env created).trace
        (Chan.room sid)) "complete" = 1 := by
  have hTs := countStage_observed_guard sid "transcribing" transcribeMsg
    transcribePctH 300 env.transWork 602 0 0 (Chan.room sid) "saving"
    (by decide)
  have hTc := countStage_observed_guard sid "transcribing" transcribeMsg
    transcribePctH 300 env.transWork 602 0 0 (Chan.room sid) "complete"
    (by decide)
  have hAs := countStage_observed_guard sid "analyzing" analyzeMsg
    analyzePctH 60 env.anaWork 122 0 0 (Chan.room sid) "saving" (by decide)
  have hAc := countStage_observed_guard sid "analyzing" analyzeMsg
    analyzePctH 60 env.anaWork 122 0 0 (Chan.room sid) "complete" (by decide)
  rcases hg : (transGuard sid env.transWork).2 with _ | r
  · rw [threadBody_timeout sid env created hg]
    simp
  · rcases r with m | t0
    · rw [threadBody_transError sid env created m hg]
      simp
    · rw [threadBody_ok sid env created t0 hg]
      refine ⟨rfl, by simp, ?_⟩
      intro uc huc
      simp only [List.mem_singleton] at huc
      subst huc
      refine ⟨rfl, ?_, ?_⟩
      · simp [transGuard, anaGuard] at hTs hAs
        simp [countStage_append, hTs, hAs, transGuard, anaGuard,
          countStage_cons]
      · simp [transGuard, anaGuard] at hTc hAc
        simp [countStage_append, hTc, hAc, transGuard, anaGuard,
          countStage_cons]

/-- C9: the Call Record is created in the provisional state (empty
transcript, empty summary, empty tag, emotion and insight lists, empty
roles map), and the pipeline issues at most one update: when it does, the
final record is the created record overwritten with that single update (the
final transcript and analysis), and the stream shows the saving stage and a
complete terminal. -/
theorem record_provisional_then_single_update (sub : Submission)
    (env : Env) :
    (∀ r, (runPipeline sub env).createdWith = some r →
      r.transcript = "" ∧ r.summary = .str "" ∧ r.tags = [] ∧
      r.emotions = [] ∧ r.insights = [] ∧ r.roles = []) ∧
    (runPipeline sub env).updateCalls.length ≤ 1 ∧
    ∀ uc ∈ (runPipeline sub env).updateCalls,
      (runPipeline sub env).record =
        some (applyUpdate (provisionalRecord env.secureName env.savedPath)
          uc.1 uc.2) ∧
      countStage (observed (runPipeline sub env).trace
        (Chan.room sub.sid)) "saving" = 1 ∧
      countStage (observed (runPipeline sub env).trace
        (Chan.room sub.sid)) "complete" = 1 := by
  by_cases h1 : sub.filename = ""
  · simp [runPipeline, h1, noEffectResult]
  · by_cases h2 : extAllowed sub.filename = false
    · simp [runPipeline, h1, h2, noEffectResult]
    · by_cases h3 : maxUploadSize < sub.size
      · simp [runPipeline, h1, h2, h3, noEffectResult]
      · by_cases h4 : sub.size = 0
        · simp [runPipeline, h1, h2, h3, h4, noEffectResult]
        · by_cases h5 : env.secureName = ""
          · simp [runPipeline, h1, h2, h3, h4, h5, noEffectResult]
          · rcases h6 : env.saveError with _ | m
            · rcases h7 : env.createResult with m | cid
              · simp [runPipeline, h1, h2, h3, h4, h5, h6, h7,
                  noEffectResult]
              · rw [runPipeline_valid sub env cid h1
                  (by simpa using h2) h3 h4 h5 h6 h7]
                obtain ⟨hc, hl, hu⟩ := threadBody_updates sub.sid env
                  (provisionalRecord env.secureName env.savedPath)
                refine ⟨?_, by simpa using hl, ?_⟩
                · intro r hr
                  simp only [hc, Option.some_inj] at hr
                  rw [← hr]
                  exact ⟨rfl, rfl, rfl, rfl, rfl, rfl⟩
                · intro uc huc
                  simp only at huc
                  obtain ⟨hrec, hsav, hcom⟩ := hu uc huc
                  refine ⟨by simpa using hrec, ?_, ?_⟩
                  · simp [countStage_append, hsav, countStage_cons]
                  · simp [countStage_append, hcom, countStage_cons]
            · simp [runPipeline, h1, h2, h3, h4, h5, h6, noEffectResult]

/-- Witness for C9: on a run whose transcription times out, the created
record is the provisional one, its content fields are empty, and at most
one update was issued. -/
theorem record_provisional_then_single_update_witness :
    (runPipeline subW envHang).createdWith =
      some (provisionalRecord "call.wav" "uploads/u.wav") ∧
    ((provisionalRecord "call.wav" "uploads/u.wav").transcript = "" ∧
      (provisionalRecord "call.wav" "uploads/u.wav").summary = .str "" ∧
      (provisionalRecord "call.wav" "uploads/u.wav").tags = [] ∧
      (provisionalRecord "call.wav" "uploads/u.wav").emotions = [] ∧
      (provisionalRecord "call.wav" "uploads/u.wav").insights = [] ∧
      (provisionalRecord "call.wav" "uploads/u.wav").roles = []) ∧
    (runPipeline subW envHang).updateCalls.length ≤ 1 := by
  have hg : (transGuard "s1" envHang.transWork).2 = Option.none := by
    show (guard "s1" "transcribing" transcribeMsg transcribePctH 300
      WorkerRun.hangs 602 0 0).2 = Option.none
    exact guard_hangs_none "s1" "transcribing" transcribeMsg transcribePctH
      300 602 0 0
  have hc : (runPipeline subW envHang).createdWith =
      some (provisionalRecord "call.wav" "uploads/u.wav") := by
    rw [runPipeline_valid subW envHang "id1" (by decide) (by decide)
      (by decide) (by decide) (by decide) rfl rfl]
    simp only [show subW.sid = "s1" from rfl,
      show envHang.secureName = "call.wav" from rfl,
      show envHang.savedPath = "uploads/u.wav" from rfl]
    rw [threadBody_timeout "s1" envHang
      (provisionalRecord "call.wav" "uploads/u.wav") hg]
  exact ⟨hc,
    (record_provisional_then_single_update subW envHang).1 _ hc,
    (record_provisional_then_single_update subW envHang).2.1⟩

/-- The sentinel is short enough to escape truncation. -/
lemma truncatedForAnalysis_sentinel :
    truncatedForAnalysis emptySentinel = emptySentinel := by decide

/-- C5: when transcription succeeds with a missing, empty or whitespace-only
transcript, the sentinel string replaces it: the sentinel is what gets
analyzed and what gets persisted, no error terminal is emitted and the run
completes. -/
theorem empty_transcript_replaced_by_sentinel (sub : Submission) (env : Env)
    (t0 : Option String) (d : ℕ) (cid : String)
    (h1 : sub.filename ≠ "") (h2 : extAllowed sub.filename = true)
    (h3 : ¬ maxUploadSize < sub.size) (h4 : sub.size ≠ 0)
    (h5 : env.secureName ≠ "") (h6 : env.saveError = Option.none)
    (h7 : env.createResult = .ok cid)
    (h8 : env.transWork = .finishes d (.ok t0)) (h9 : d ≤ 601)
    (h10 : t0 = Option.none ∨ ∃ s, t0 = some s ∧ isBlank s = true) :
    (runPipeline sub env).analyzedWith = some emptySentinel ∧
    (∀ uc ∈ (runPipeline sub env).updateCalls, uc.1 = emptySentinel) ∧
    countStage (observed (runPipeline sub env).trace
      (Chan.room sub.sid)) "error" = 0 ∧
    countStage (observed (runPipeline sub env).trace
      (Chan.room sub.sid)) "complete" = 1 := by
  have hg : (transGuard sub.sid env.transWork).2 = some (Except.ok t0) := by
    rw [h8]
    exact guard_finishes_some sub.sid "transcribing" transcribeMsg
      transcribePctH 300 d (Except.ok t0) (by omega) 602 0 0 (by omega)
  have hft : finalTranscript t0 = emptySentinel := by
    rcases h10 with rfl | ⟨s, rfl, hs⟩
    · rfl
    · simp [finalTranscript, hs]
  have hTe := countStage_observed_guard sub.sid "transcribing" transcribeMsg
    transcribePctH 300 env.transWork 602 0 0 (Chan.room sub.sid) "error"
    (by decide)
  have hTc := countStage_observed_guard sub.sid "transcribing" transcribeMsg
    transcribePctH 300 env.transWork 602 0 0 (Chan.room sub.sid) "complete"
    (by decide)
  have hAe := countStage_observed_guard sub.sid "analyzing" analyzeMsg
    analyzePctH 60 env.anaWork 122 0 0 (Chan.room sub.sid) "error"
    (by decide)
  have hAc := countStage_observed_guard sub.sid "analyzing" analyzeMsg
    analyzePctH 60 env.anaWork 122 0 0 (Chan.room sub.sid) "complete"
    (by decide)
  rw [runPipeline_valid sub env cid h1 h2 h3 h4 h5 h6 h7,
    threadBody_ok sub.sid env
      (provisionalRecord env.secureName env.savedPath) t0 hg]
  refine ⟨by simp [hft, truncatedForAnalysis_sentinel], ?_, ?_, ?_⟩
  · intro uc huc
    simp only [List.mem_singleton] at huc
    rw [huc, hft]
  · simp [transGuard, anaGuard] at hTe hAe
    simp [countStage_append, hTe, hAe, transGuard, anaGuard,
      countStage_cons]
  · simp [transGuard, anaGuard] at hTc hAc
    simp [countStage_append, hTc, hAc, transGuard, anaGuard,
      countStage_cons]

/-- The happy environment with a whitespace-only transcript. -/
def envBlank : Env where
  secureName := "call.wav"
  savedPath := "uploads/u.wav"
  saveError := Option.none
  createResult := .ok "id1"
  transWork := .finishes 2 (.ok (some "  "))
  anaWork := .finishes 0 (.ok (.dict
    [("summary", .str "short call"), ("tags", .list [.str "inquiry"])]))

/-- Witness for C5: a transcription worker returning a whitespace-only
transcript after one second leads to the sentinel being analyzed and
persisted, with a complete terminal and no error. -/
theorem empty_transcript_replaced_by_sentinel_witness :
    isBlank "  " = true ∧
    ((runPipeline subW envBlank).analyzedWith = some emptySentinel ∧
    (∀ uc ∈ (runPipeline subW envBlank).updateCalls,
      uc.1 = emptySentinel) ∧
    countStage (observed (runPipeline subW envBlank).trace
      (Chan.room "s1")) "error" = 0 ∧
    countStage (observed (runPipeline subW envBlank).trace
      (Chan.room "s1")) "complete" = 1) :=
  ⟨by decide,
   empty_transcript_replaced_by_sentinel subW envBlank
     (some "  ") 2 "id1" (by decide) (by decide) (by decide) (by decide)
     (by decide) rfl rfl rfl (by omega)
     (Or.inr ⟨"  ", rfl, by decide⟩)⟩

/-- Bounds of the transcription percent formula: clamped into [35, 70] for
any non-negative elapsed time. -/
lemma transcribePct_bounds (q : ℚ) (hq : 0 ≤ q) :
    35 ≤ transcribePct q ∧ transcribePct q ≤ 70 := by
  unfold transcribePct
  split
  · constructor
    · refine le_min ?_ (by norm_num)
      have h0 : (0 : ℤ) ≤ ⌊q / 60 * 35⌋ := Int.floor_nonneg.mpr (by positivity)
      omega
    · exact min_le_right _ _
  · constructor
    · refine le_min ?_ (by norm_num)
      have h0 : (0 : ℤ) ≤ ⌊q / 300 * 35⌋ := Int.floor_nonneg.mpr (by positivity)
      omega
    · exact min_le_right _ _

/-- C7: every percent displayed during the transcribing stage is computed
at an even-numbered elapsed second v by the two-phase model: for v below
the 60-second expected duration the percent is 35 + floor(v/60*35) clamped
to 70, beyond it the percent is 35 + floor(v/300*35) against the
300-second budget, clamped to 70; in both phases the value stays within
the stage range [35, 70]. -/
theorem transcribing_percent_two_phase (sid : String)
    (w : WorkerRun (Except String (Option String))) (ce : Chan × Event)
    (h : ce ∈ (transGuard sid w).1) :
    ∃ v : ℕ, v % 2 = 0 ∧ ce.2.stage = "transcribing" ∧
      ce.2.progress = transcribePct (v : ℚ) ∧
      ((v : ℚ) < 60 →
        transcribePct (v : ℚ) = min (35 + ⌊(v : ℚ) / 60 * 35⌋) 70) ∧
      (60 ≤ (v : ℚ) →
        transcribePct (v : ℚ) = min (35 + ⌊(v : ℚ) / 300 * 35⌋) 70) ∧
      35 ≤ ce.2.progress ∧ ce.2.progress ≤ 70 := by
  obtain ⟨v, hv, hev⟩ := guard_even_tick sid "transcribing" transcribeMsg
    transcribePctH 300 w 602 0 0 (by decide) (by decide) (by decide)
    (by omega) ce h
  refine ⟨v, hv, by rw [hev],
    by rw [hev]; exact transcribePctH_even v, ?_, ?_, ?_, ?_⟩
  · intro hlt
    simp [transcribePct, hlt]
  · intro hge
    simp [transcribePct, not_lt.mpr hge]
  · rw [hev]
    show 35 ≤ transcribePctH (2 * v)
    rw [transcribePctH_even v]
    exact (transcribePct_bounds _ (by positivity)).1
  · rw [hev]
    show transcribePctH (2 * v) ≤ 70
    rw [transcribePctH_even v]
    exact (transcribePct_bounds _ (by positivity)).2

/-- A transcription worker finishing after five seconds. -/
def wTen : WorkerRun (Except String (Option String)) :=
  .finishes 10 (Except.ok (some "x"))

/-- Witness for C7: the tick at elapsed second 2 of a five-second
transcription carries percent 36 = min (35 + floor(2/60*35)) 70. -/
theorem transcribing_percent_two_phase_witness :
    ((Chan.room "s1",
      (⟨"s1", "transcribing", 36, transcribeMsg 2⟩ : Event)) ∈
        (transGuard "s1" wTen).1) ∧
    (∃ v : ℕ, v % 2 = 0 ∧
      (⟨"s1", "transcribing", 36, transcribeMsg 2⟩ : Event).stage =
        "transcribing" ∧
      (⟨"s1", "transcribing", 36, transcribeMsg 2⟩ : Event).progress =
        transcribePct (v : ℚ) ∧
      ((v : ℚ) < 60 →
        transcribePct (v : ℚ) = min (35 + ⌊(v : ℚ) / 60 * 35⌋) 70) ∧
      (60 ≤ (v : ℚ) →
        transcribePct (v : ℚ) = min (35 + ⌊(v : ℚ) / 300 * 35⌋) 70) ∧
      35 ≤ (⟨"s1", "transcribing", 36, transcribeMsg 2⟩ : Event).progress ∧
      (⟨"s1", "transcribing", 36, transcribeMsg 2⟩ : Event).progress ≤ 70) :=
  ⟨by decide,
   transcribing_percent_two_phase "s1" wTen
     (Chan.room "s1", ⟨"s1", "transcribing", 36, transcribeMsg 2⟩)
     (by decide)⟩

/-!  Monotonicity and bounds of the integer percent functions. -/

lemma transcribePctH_mono {v v' : ℕ} (h : v ≤ v') (h2 : v' < 120) :
    transcribePctH v ≤ transcribePctH v' := by
  unfold transcribePctH
  rw [if_pos (by omega : v < 120), if_pos h2]
  have hd : 35 * (v : Int) / 120 ≤ 35 * (v' : Int) / 120 := by
    apply Int.ediv_le_ediv (by norm_num)
    have hc : (v : Int) ≤ (v' : Int) := by exact_mod_cast h
    linarith
  omega

lemma transcribePctH_bounds (k : ℕ) :
    35 ≤ transcribePctH k ∧ transcribePctH k ≤ 70 := by
  unfold transcribePctH
  have h1 : 0 ≤ 35 * (k : Int) / 120 :=
    Int.ediv_nonneg (by positivity) (by norm_num)
  have h2 : 0 ≤ 35 * (k : Int) / 600 :=
    Int.ediv_nonneg (by positivity) (by norm_num)
  split
  all_goals omega

lemma analyzePctH_mono {v v' : ℕ} (h : v ≤ v') :
    analyzePctH v ≤ analyzePctH v' := by
  unfold analyzePctH
  have hd : 20 * (v : Int) / 120 ≤ 20 * (v' : Int) / 120 := by
    apply Int.ediv_le_ediv (by norm_num)
    have hc : (v : Int) ≤ (v' : Int) := by exact_mod_cast h
    linarith
  omega

lemma analyzePctH_bounds (k : ℕ) :
    70 ≤ analyzePctH k ∧ analyzePctH k ≤ 90 := by
  unfold analyzePctH
  have h1 : 0 ≤ 20 * (k : Int) / 120 :=
    Int.ediv_nonneg (by positivity) (by norm_num)
  omega

/-- Pairwise ordering transfers from a trace to the percent list any
observer extracts from it. -/
lemma pairwise_percents {t : List (Chan × Event)} {c : Chan}
    (h : t.Pairwise (fun a b => a.2.progress ≤ b.2.progress)) :
    ((observed t c).map (fun e => e.progress)).Pairwise (· ≤ ·) := by
  unfold observed
  rw [List.map_map]
  exact (h.filter _).map _ (fun a b hab => hab)

/-- Every percent an observer extracts from a guard trace is the percent
function at some iteration below the timeout boundary. -/
lemma observed_guard_percents_mem {α : Type} (sid stageName : String)
    (msgFn : ℕ → String) (pctFn : ℕ → Int) (budget : ℕ) (w : WorkerRun α)
    (fuel k last : ℕ) (c : Chan) :
    ∀ x ∈ ((observed
        (guard sid stageName msgFn pctFn budget w fuel k last).1 c).map
        (fun e => e.progress)),
      ∃ v : ℕ, x = pctFn v := by
  intro x hx
  simp only [List.mem_map] at hx
  obtain ⟨e, he, rfl⟩ := hx
  simp only [observed, List.mem_map] at he
  obtain ⟨ce, hce, rfl⟩ := he
  obtain ⟨v, _, _, _, h4⟩ := guard_mem sid stageName msgFn pctFn budget w
    fuel k last ce (List.mem_filter.mp hce).1
  exact ⟨v, by rw [h4]⟩

/-- Concatenation of two sorted percent blocks separated by a cut value. -/
lemma pairwise_le_blocks (l1 l2 : List Int) (c1 c2 : Int)
    (h1 : l1.Pairwise (· ≤ ·)) (h2 : l2.Pairwise (· ≤ ·))
    (hb1 : ∀ x ∈ l1, x ≤ c1) (hb2 : ∀ x ∈ l2, c2 ≤ x) (hc : c1 ≤ c2) :
    (l1 ++ l2).Pairwise (· ≤ ·) := by
  rw [List.pairwise_append]
  exact ⟨h1, h2, fun a ha b hb =>
    le_trans (le_trans (hb1 a ha) hc) (hb2 b hb)⟩

/-- Executable test that a percent list is non-decreasing. -/
def nonDecreasing : List Int → Bool
  | [] => true
  | [_] => true
  | a :: b :: r => a ≤ b && nonDecreasing (b :: r)

/-- The executable test agrees with the chain formulation. -/
lemma nonDecreasing_iff : ∀ l : List Int,
    nonDecreasing l = true ↔ List.Chain' (· ≤ ·) l
  | [] => by simp [nonDecreasing]
  | [a] => by simp [nonDecreasing]
  | a :: b :: r => by
    rw [List.chain'_cons, ← nonDecreasing_iff (b :: r)]
    simp [nonDecreasing]

/-- The transcription worker failing at once: the error terminal event
carries percent 0 after percent 35 was already displayed. -/
def envTransErr : Env where
  secureName := "call.wav"
  savedPath := "uploads/u.wav"
  saveError := Option.none
  createResult := .ok "id1"
  transWork := .finishes 0 (Except.error "boom")
  anaWork := .finishes 0 (.ok (.dict
    [("summary", .str "short call"), ("tags", .list [.str "inquiry"])]))

/-- Counterexample to C2 as stated: the percent sequence of a session is
not always non-decreasing.  First, a failed transcription emits the error
terminal with percent 0 after 35 was already shown; second, the displayed
transcribing percent itself drops at the 60-second phase boundary (at
elapsed второй 58 s it shows 68, at 60 s it shows 42). -/
theorem percents_not_monotone_counterexample :
    (¬ List.Chain' (· ≤ ·)
      (sessionPercents (runPipeline subW envTransErr) "s1")) ∧
    transcribePctH 120 < transcribePctH 116 ∧
    transcribePct 60 < transcribePct 58 := by
  refine ⟨by rw [← nonDecreasing_iff]; decide, by decide, ?_⟩
  have h60 : transcribePct ((60 : ℕ) : ℚ) = transcribePctH 120 :=
    (transcribePctH_even 60).symm
  have h58 : transcribePct ((58 : ℕ) : ℚ) = transcribePctH 116 :=
    (transcribePctH_even 58).symm
  norm_num at h60 h58
  rw [h60, h58]
  decide

/-- C2 amended: for a submission that completes successfully and whose
transcription worker finishes within the 60-second expected duration
(d < 120 polling steps), the percent values observed on the session channel
are non-decreasing from the first event through the complete terminal. -/
theorem percents_monotone_amended (sub : Submission) (env : Env)
    (d : ℕ) (t0 : Option String) (cid : String)
    (h1 : sub.filename ≠ "") (h2 : extAllowed sub.filename = true)
    (h3 : ¬ maxUploadSize < sub.size) (h4 : sub.size ≠ 0)
    (h5 : env.secureName ≠ "") (h6 : env.saveError = Option.none)
    (h7 : env.createResult = .ok cid)
    (h8 : env.transWork = .finishes d (Except.ok t0)) (h9 : d ≤ 119) :
    List.Chain' (· ≤ ·) (sessionPercents (runPipeline sub env) sub.sid) := by
  have hg : (transGuard sub.sid env.transWork).2 = some (Except.ok t0) := by
    rw [h8]
    exact guard_finishes_some sub.sid "transcribing" transcribeMsg
      transcribePctH 300 d (Except.ok t0) (by omega) 602 0 0 (by omega)
  have hTsorted : ((observed (transGuard sub.sid env.transWork).1
      (Chan.room sub.sid)).map (fun e => e.progress)).Pairwise (· ≤ ·) := by
    apply pairwise_percents
    rw [h8]
    simp only [transGuard]
    apply guard_sorted
    intro v v' hv hb hbud
    have hvd : v' < d := hb
    exact transcribePctH_mono hv (by omega)
  have hAsorted : ((observed (anaGuard sub.sid env.anaWork).1
      (Chan.room sub.sid)).map (fun e => e.progress)).Pairwise (· ≤ ·) := by
    apply pairwise_percents
    simp only [anaGuard]
    apply guard_sorted
    intro v v' hv hb hbud
    exact analyzePctH_mono hv
  have hTmem : ∀ x ∈ ((observed (transGuard sub.sid env.transWork).1
      (Chan.room sub.sid)).map (fun e => e.progress)), 35 ≤ x ∧ x ≤ 70 := by
    intro x hx
    simp only [transGuard] at hx
    obtain ⟨v, rfl⟩ := observed_guard_percents_mem sub.sid "transcribing"
      transcribeMsg transcribePctH 300 env.transWork 602 0 0
      (Chan.room sub.sid) x hx
    exact transcribePctH_bounds v
  have hAmem : ∀ x ∈ ((observed (anaGuard sub.sid env.anaWork).1
      (Chan.room sub.sid)).map (fun e => e.progress)), 70 ≤ x ∧ x ≤ 90 := by
    intro x hx
    simp only [anaGuard] at hx
    obtain ⟨v, rfl⟩ := observed_guard_percents_mem sub.sid "analyzing"
      analyzeMsg analyzePctH 60 env.anaWork 122 0 0
      (Chan.room sub.sid) x hx
    exact analyzePctH_bounds v
  rw [runPipeline_valid sub env cid h1 h2 h3 h4 h5 h6 h7,
    threadBody_ok sub.sid env
      (provisionalRecord env.secureName env.savedPath) t0 hg]
  apply List.Pairwise.chain'
  simp only [sessionPercents, observed_append, observed_sendProgress_room,
    List.map_append, List.map_cons, List.map_nil, List.append_assoc,
    List.singleton_append, List.cons_append, List.nil_append]
  have hInner2 : ((observed (anaGuard sub.sid env.anaWork).1
      (Chan.room sub.sid)).map (fun e => e.progress)
        ++ [(90 : Int), 90, 100]).Pairwise (· ≤ ·) := by
    refine pairwise_le_blocks _ _ 90 90 hAsorted (by decide) ?_ ?_ le_rfl
    · intro x hx
      exact (hAmem x hx).2
    · intro x hx
      simp only [List.mem_cons, List.not_mem_nil, or_false] at hx
      rcases hx with rfl | rfl | rfl
      all_goals norm_num
  have hInner1 : ((70 : Int) :: 70 ::
      ((observed (anaGuard sub.sid env.anaWork).1
        (Chan.room sub.sid)).map (fun e => e.progress)
          ++ [(90 : Int), 90, 100])).Pairwise (· ≤ ·) := by
    refine pairwise_le_blocks [70, 70] _ 70 70 (by decide) hInner2 ?_ ?_
      le_rfl
    · intro x hx
      simp only [List.mem_cons, List.not_mem_nil, or_false] at hx
      rcases hx with rfl | rfl
      all_goals norm_num
    · intro x hx
      rcases List.mem_append.mp hx with h | h
      · exact (hAmem x h).1
      · simp only [List.mem_cons, List.not_mem_nil, or_false] at h
        rcases h with rfl | rfl | rfl
        all_goals norm_num
  have hBlockT : (((observed (transGuard sub.sid env.transWork).1
      (Chan.room sub.sid)).map (fun e => e.progress))
        ++ (70 : Int) :: 70 ::
        ((observed (anaGuard sub.sid env.anaWork).1
          (Chan.room sub.sid)).map (fun e => e.progress)
            ++ [(90 : Int), 90, 100])).Pairwise (· ≤ ·) := by
    refine pairwise_le_blocks _ _ 70 70 hTsorted hInner1 ?_ ?_ le_rfl
    · intro x hx
      exact (hTmem x hx).2
    · intro x hx
      rcases List.mem_cons.mp hx with rfl | hx2
      · norm_num
      · rcases List.mem_cons.mp hx2 with rfl | hx3
        · norm_num
        · rcases List.mem_append.mp hx3 with h | h
          · exact (hAmem x h).1
          · simp only [List.mem_cons, List.not_mem_nil, or_false] at h
            rcases h with rfl | rfl | rfl
            all_goals norm_num
  refine pairwise_le_blocks [0, 10, 20, 25, 30, 30, 35] _ 35 35
    (by decide) hBlockT (by decide) ?_ le_rfl
  intro x hx
  rcases List.mem_append.mp hx with h | h
  · exact (hTmem x h).1
  · rcases List.mem_cons.mp h with rfl | h2
    · norm_num
    · rcases List.mem_cons.mp h2 with rfl | h3
      · norm_num
      · rcases List.mem_append.mp h3 with h4 | h4
        · linarith [(hAmem x h4).1]
        · simp only [List.mem_cons, List.not_mem_nil, or_false] at h4
          rcases h4 with rfl | rfl | rfl
          all_goals norm_num

/-- Witness for the amended C2: the happy-path run with a one-second
transcription has the non-decreasing percent stream
0,10,20,25,30,30,35,70,70,90,90,100. -/
theorem percents_monotone_amended_witness :
    envOK.transWork = WorkerRun.finishes 2 (Except.ok (some "hello world")) ∧
    List.Chain' (· ≤ ·) (sessionPercents (runPipeline subW envOK) "s1") :=
  ⟨rfl, percents_monotone_amended subW envOK 2 (some "hello world") "id1"
    (by decide) (by decide) (by decide) (by decide) (by decide) rfl rfl rfl
    (by omega)⟩

/-- The analysis engine returning a well-formed mapping whose tags field is
a bare string rather than a list. -/
def envNonListTags : Env where
  secureName := "call.wav"
  savedPath := "uploads/u.wav"
  saveError := Option.none
  createResult := .ok "id1"
  transWork := .finishes 2 (.ok (some "hello world"))
  anaWork := .finishes 0 (.ok
    (analyzeTranscript "hello world" (.jsonDict [("tags", .str "sale")])).result)

/-- Counterexample to C4 as stated: an analysis result with a non-list tags
field is coerced into the singleton list, not replaced by the
analysis-error fallback.  The run still completes without an error event,
but the saved record carries tags = [sale], not [analysis-error]. -/
theorem analysis_nonlist_tags_counterexample :
    countStage (observed (runPipeline subW envNonListTags).trace
      (Chan.room "s1")) "error" = 0 ∧
    countStage (observed (runPipeline subW envNonListTags).trace
      (Chan.room "s1")) "complete" = 1 ∧
    ((runPipeline subW envNonListTags).record.map (fun r => r.tags)) =
      some [PyVal.str "sale"] ∧
    ¬ ((runPipeline subW envNonListTags).record.map (fun r => r.tags)) =
      some [PyVal.str "analysis-error"] := by
  refine ⟨by decide, by decide, rfl, ?_⟩
  intro h
  rw [show ((runPipeline subW envNonListTags).record.map (fun r => r.tags))
    = some [PyVal.str "sale"] from rfl] at h
  simp only [Option.some_inj, List.cons.injEq, PyVal.str.injEq] at h
  exact absurd h.1 (by decide)

/-- Extraction from the analysis-error dict yields the error-tagged
fallback field values. -/
lemma extractFields_errorDict (m : String) :
    (extractFields (errorDict m)).tags = [PyVal.str "analysis-error"] ∧
    (extractFields (errorDict m)).mood = PyVal.str "neutral" ∧
    (extractFields (errorDict m)).intent = PyVal.str "unknown" ∧
    (extractFields (errorDict m)).insights = [] :=
  ⟨rfl, rfl, rfl, rfl⟩

/-- C4 amended: when the analysis stage fails by raising, by timing out
(over the 60-second budget), or with the engine-failure dict that
analyze_transcript returns after its engine raises, the pipeline still
emits no error event, reaches the complete terminal, and the record
carries tags = [analysis-error], mood = neutral, intent = unknown and an
empty insight list.  (A mapping with non-list fields, by contrast, is
coerced, not error-tagged: see the counterexample.) -/
theorem analysis_failure_absorbed (sub : Submission) (env : Env)
    (d : ℕ) (t0 : Option String) (cid : String)
    (h1 : sub.filename ≠ "") (h2 : extAllowed sub.filename = true)
    (h3 : ¬ maxUploadSize < sub.size) (h4 : sub.size ≠ 0)
    (h5 : env.secureName ≠ "") (h6 : env.saveError = Option.none)
    (h7 : env.createResult = .ok cid)
    (h8 : env.transWork = .finishes d (Except.ok t0)) (h9 : d ≤ 601)
    (ha : env.anaWork = WorkerRun.hangs ∨
      (∃ da m, env.anaWork = .finishes da (Except.error m)) ∨
      (∃ da m, env.anaWork =
        .finishes da (Except.ok (PyVal.dict (errorDict m)))) ∨
      (∃ da r, env.anaWork = .finishes da r ∧ 121 < da)) :
    countStage (observed (runPipeline sub env).trace
      (Chan.room sub.sid)) "error" = 0 ∧
    countStage (observed (runPipeline sub env).trace
      (Chan.room sub.sid)) "complete" = 1 ∧
    ((runPipeline sub env).record.map (fun r => r.tags)) =
      some [PyVal.str "analysis-error"] ∧
    ((runPipeline sub env).record.map (fun r => r.mood)) =
      some (PyVal.str "neutral") ∧
    ((runPipeline sub env).record.map (fun r => r.intent)) =
      some (PyVal.str "unknown") ∧
    ((runPipeline sub env).record.map (fun r => r.insights)) = some [] := by
  have hg : (transGuard sub.sid env.transWork).2 = some (Except.ok t0) := by
    rw [h8]
    exact guard_finishes_some sub.sid "transcribing" transcribeMsg
      transcribePctH 300 d (Except.ok t0) (by omega) 602 0 0 (by omega)
  have hfields :
      (analysisOutcomeFields (anaGuard sub.sid env.anaWork).2).tags =
        [PyVal.str "analysis-error"] ∧
      (analysisOutcomeFields (anaGuard sub.sid env.anaWork).2).mood =
        PyVal.str "neutral" ∧
      (analysisOutcomeFields (anaGuard sub.sid env.anaWork).2).intent =
        PyVal.str "unknown" ∧
      (analysisOutcomeFields (anaGuard sub.sid env.anaWork).2).insights =
        [] := by
    rcases ha with ha | ⟨da, m, ha⟩ | ⟨da, m, ha⟩ | ⟨da, r, ha, hda⟩
    · rw [ha]
      simp only [anaGuard]
      rw [guard_hangs_none sub.sid "analyzing" analyzeMsg analyzePctH 60
        122 0 0]
      exact ⟨rfl, rfl, rfl, rfl⟩
    · by_cases hle : da ≤ 121
      · rw [ha]
        simp only [anaGuard]
        rw [guard_finishes_some sub.sid "analyzing" analyzeMsg analyzePctH
          60 da (Except.error m) (by omega) 122 0 0 (by omega)]
        exact ⟨rfl, rfl, rfl, rfl⟩
      · rw [ha]
        simp only [anaGuard]
        rw [guard_finishes_timeout sub.sid "analyzing" analyzeMsg
          analyzePctH 60 da (Except.error m) (by omega) 122 0 0 (by omega)
          (by omega)]
        exact ⟨rfl, rfl, rfl, rfl⟩
    · by_cases hle : da ≤ 121
      · rw [ha]
        simp only [anaGuard]
        rw [guard_finishes_some sub.sid "analyzing" analyzeMsg analyzePctH
          60 da (Except.ok (PyVal.dict (errorDict m))) (by omega) 122 0 0
          (by omega)]
        exact extractFields_errorDict m
      · rw [ha]
        simp only [anaGuard]
        rw [guard_finishes_timeout sub.sid "analyzing" analyzeMsg
          analyzePctH 60 da (Except.ok (PyVal.dict (errorDict m)))
          (by omega) 122 0 0 (by omega) (by omega)]
        exact ⟨rfl, rfl, rfl, rfl⟩
    · rw [ha]
      simp only [anaGuard]
      rw [guard_finishes_timeout sub.sid "analyzing" analyzeMsg
        analyzePctH 60 da r (by omega) 122 0 0 (by omega) (by omega)]
      exact ⟨rfl, rfl, rfl, rfl⟩
  have hTe := countStage_observed_guard sub.sid "transcribing" transcribeMsg
    transcribePctH 300 env.transWork 602 0 0 (Chan.room sub.sid) "error"
    (by decide)
  have hTc := countStage_observed_guard sub.sid "transcribing" transcribeMsg
    transcribePctH 300 env.transWork 602 0 0 (Chan.room sub.sid) "complete"
    (by decide)
  have hAe := countStage_observed_guard sub.sid "analyzing" analyzeMsg
    analyzePctH 60 env.anaWork 122 0 0 (Chan.room sub.sid) "error"
    (by decide)
  have hAc := countStage_observed_guard sub.sid "analyzing" analyzeMsg
    analyzePctH 60 env.anaWork 122 0 0 (Chan.room sub.sid) "complete"
    (by decide)
  rw [runPipeline_valid sub env cid h1 h2 h3 h4 h5 h6 h7,
    threadBody_ok sub.sid env
      (provisionalRecord env.secureName env.savedPath) t0 hg]
  refine ⟨?_, ?_, ?_, ?_, ?_, ?_⟩
  · simp [transGuard, anaGuard] at hTe hAe
    simp [countStage_append, hTe, hAe, transGuard, anaGuard,
      countStage_cons]
  · simp [transGuard, anaGuard] at hTc hAc
    simp [countStage_append, hTc, hAc, transGuard, anaGuard,
      countStage_cons]
  · simp [applyUpdate, hfields.1]
  · simp [applyUpdate, hfields.2.1]
  · simp [applyUpdate, hfields.2.2.1]
  · simp [applyUpdate, hfields.2.2.2]

/-- The analysis engine hanging past its budget. -/
def envAnaHang : Env where
  secureName := "call.wav"
  savedPath := "uploads/u.wav"
  saveError := Option.none
  createResult := .ok "id1"
  transWork := .finishes 2 (.ok (some "hello world"))
  anaWork := WorkerRun.hangs

/-- Witness for the amended C4: with a hung analysis engine the run still
completes with the analysis-error fallback fields. -/
theorem analysis_failure_absorbed_witness :
    envAnaHang.anaWork = WorkerRun.hangs ∧
    (countStage (observed (runPipeline subW envAnaHang).trace
      (Chan.room "s1")) "error" = 0 ∧
    countStage (observed (runPipeline subW envAnaHang).trace
      (Chan.room "s1")) "complete" = 1 ∧
    ((runPipeline subW envAnaHang).record.map (fun r => r.tags)) =
      some [PyVal.str "analysis-error"] ∧
    ((runPipeline subW envAnaHang).record.map (fun r => r.mood)) =
      some (PyVal.str "neutral") ∧
    ((runPipeline subW envAnaHang).record.map (fun r => r.intent)) =
      some (PyVal.str "unknown") ∧
    ((runPipeline subW envAnaHang).record.map (fun r => r.insights)) =
      some []) :=
  ⟨rfl, analysis_failure_absorbed subW envAnaHang 2 (some "hello world")
    "id1" (by decide) (by decide) (by decide) (by decide) (by decide)
    rfl rfl rfl (by omega) (Or.inl rfl)⟩

/-- C10: analyze_transcript is total and always returns a dict holding
exactly the seven keys summary, tags, roles, emotions, intent, mood and
insights, in which tags, emotions and insights are lists and roles is a
dict; a blank transcript short-circuits to the no-transcript fallback
without invoking the language-model engine. -/
theorem analyze_transcript_total_shape (t : String) (e : EngineOutcome) :
    (∃ s tg rl em it md ins, (analyzeTranscript t e).result =
      PyVal.dict [("summary", s), ("tags", PyVal.list tg),
        ("roles", PyVal.dict rl), ("emotions", PyVal.list em),
        ("intent", it), ("mood", md), ("insights", PyVal.list ins)]) ∧
    (isBlank t = true → (analyzeTranscript t e).engineCalled = false ∧
      (analyzeTranscript t e).result = PyVal.dict noTranscriptDict) := by
  constructor
  · unfold analyzeTranscript
    by_cases hb : isBlank t
    · rw [if_pos hb]
      exact ⟨_, _, _, _, _, _, _, rfl⟩
    · rw [if_neg hb]
      cases e with
      | raises m => exact ⟨_, _, _, _, _, _, _, rfl⟩
      | jsonDict d => exact ⟨_, _, _, _, _, _, _, rfl⟩
      | jsonNonDict v => exact ⟨_, _, _, _, _, _, _, rfl⟩
      | jsonInvalid raw => exact ⟨_, _, _, _, _, _, _, rfl⟩
  · intro hb
    unfold analyzeTranscript
    rw [if_pos hb]
    exact ⟨rfl, rfl⟩

/-- Witness for C10: on the blank transcript a raising engine is never
invoked and the no-transcript fallback is returned. -/
theorem analyze_transcript_total_shape_witness :
    isBlank " " = true ∧
    (analyzeTranscript " " (.raises "boom")).engineCalled = false ∧
    (analyzeTranscript " " (.raises "boom")).result =
      PyVal.dict noTranscriptDict ∧
    (∃ s tg rl em it md ins,
      (analyzeTranscript " " (.raises "boom")).result =
      PyVal.dict [("summary", s), ("tags", PyVal.list tg),
        ("roles", PyVal.dict rl), ("emotions", PyVal.list em),
        ("intent", it), ("mood", md), ("insights", PyVal.list ins)]) :=
  ⟨by decide,
   ((analyze_transcript_total_shape " " (.raises "boom")).2 (by decide)).1,
   ((analyze_transcript_total_shape " " (.raises "boom")).2 (by decide)).2,
   (analyze_transcript_total_shape " " (.raises "boom")).1⟩

end Altur
